import Mathlib

/-!
Verification development for the Caristix HL7 trigger-event scraper
(`scripts/scrape/scrapers/hl7_event_scraper.py`).

The Python source is shallowly embedded: every function below mirrors a
specific function of the source file, with DOM handles replaced by plain
data (a row is its queried cell texts, its visible text, and the
`padding-left` pixel count parsed from its `style` attribute; a listing
page is the set of link `href`s materialized at each scroll offset).
Sleeps and log statements, which have no observable effect on the values
computed, are dropped.
-/

namespace Caristix

/-! ## Python string primitives

Helpers mirroring the exact Python `str` operations used by the scraper:
`strip`, `split('\n')`, `split(sep, 1)`, `in` (substring test),
`startswith`, `isupper`, `upper`, `rstrip('/')`, slicing `[n:]`. All are
structural recursions over `List Char` so that concrete instances reduce
inside the kernel. -/

/-- Python `s.strip()`: drop leading and trailing whitespace. -/
def pyStrip (s : String) : String :=
  String.mk (((s.data.dropWhile Char.isWhitespace).reverse.dropWhile Char.isWhitespace).reverse)

/-- Splitter for Python `s.split(c)` on a single character, accumulator form. -/
def splitCharAux (sep : Char) : List Char → List Char → List (List Char)
  | [], cur => [cur.reverse]
  | c :: cs, cur =>
    if c == sep then cur.reverse :: splitCharAux sep cs []
    else splitCharAux sep cs (c :: cur)

/-- Python `s.split(c)` for a one-character separator. -/
def splitChar (sep : Char) (s : String) : List String :=
  (splitCharAux sep s.data []).map String.mk

/-- Python `s.split('\n')`, the line split used by `_parse_row_text`. -/
def splitLines (s : String) : List String := splitChar '\n' s

/-- Check whether `p` is an initial segment of `l` (Python `startswith`). -/
def listStartsWith : List Char → List Char → Bool
  | [], _ => true
  | _ :: _, [] => false
  | a :: as, b :: bs => a == b && listStartsWith as bs

/-- Python `s.startswith(p)`. -/
def startsWithStr (s p : String) : Bool := listStartsWith p.data s.data

/-- Python `s.startswith((p1, p2, ...))`: true when any listed prefix matches. -/
def startsWithAny (s : String) (ps : List String) : Bool := ps.any (startsWithStr s)

/-- Substring search on character lists, scanning left to right. -/
def containsSubList (needle : List Char) : List Char → Bool
  | [] => listStartsWith needle []
  | c :: t => listStartsWith needle (c :: t) || containsSubList needle t

/-- Python `sub in s`: substring containment. -/
def containsSub (s sub : String) : Bool := containsSubList sub.data s.data

/-- Consume `pre` off the front of a list, returning the remainder on success. -/
def dropPrefixList : List Char → List Char → Option (List Char)
  | [], rest => some rest
  | _ :: _, [] => none
  | a :: as, b :: bs => if a == b then dropPrefixList as bs else none

/-- Locate the first occurrence of `needle` and split around it. -/
def splitFirstList (needle : List Char) : List Char → Option (List Char × List Char)
  | [] =>
    match dropPrefixList needle [] with
    | some rest => some ([], rest)
    | none => none
  | c :: t =>
    match dropPrefixList needle (c :: t) with
    | some rest => some ([], rest)
    | none =>
      match splitFirstList needle t with
      | some (pre, post) => some (c :: pre, post)
      | none => none

/-- Python `s.split(sep, 1)` when `sep` occurs in `s`: the text before the
first occurrence and the text after it; `none` when `sep` does not occur. -/
def splitOnFirstSub (s sep : String) : Option (String × String) :=
  (splitFirstList sep.data s.data).map (fun p => (String.mk p.1, String.mk p.2))

/-- Characters Python treats as cased for the purposes of `isupper`. -/
def casedChar (c : Char) : Bool := c.isUpper || c.isLower

/-- Python `s.isupper()`: at least one cased character and no lowercase one. -/
def pyIsUpper (s : String) : Bool :=
  s.data.any casedChar && s.data.all (fun c => !c.isLower)

/-- Python `s.upper()` restricted to ASCII, which covers every comparison
the scraper performs. -/
def pyUpper (s : String) : String := String.mk (s.data.map Char.toUpper)

/-- Python `s.rstrip('/')`: drop trailing slashes. -/
def pyRstripSlash (s : String) : String :=
  String.mk (s.data.reverse.dropWhile (fun c => c == '/')).reverse

/-- Python slice `s[n:]`. -/
def strDrop (s : String) (n : Nat) : String := String.mk (s.data.drop n)

/-! ## Data model of the flatten pass

`Row` is the shallow embedding of one `.flex-segment` DOM row as the
second pass of `expand_groups` observes it: the stripped-at-use cell
texts found by the cell selectors (empty when no cell selector matches),
the row's full visible text, and the `padding-left` pixel value parsed
from its `style` attribute by `_detect_hierarchy_level` (0 when the
attribute carries no `padding-left`). `Segment` is the dict each row
parser returns. -/

/-- One table row as seen by `_extract_segment_from_row`. -/
structure Row where
  cells : List String
  text : String
  paddingPx : Nat
deriving Repr, DecidableEq

/-- The segment record built by the row parsers (the Python dict literal). -/
structure Segment where
  segment_code : String
  segment_desc : String
  optionality : String
  repeatability : String
  is_group : Bool
  group_path : List String
  level : Nat
  order_index : Nat
deriving Repr, DecidableEq

/-- UI affordance tokens filtered out by both parsers. -/
def uiTokens : List String := ["chevron_right", "expand_more", "expand_less"]

/-- Leaf-code prefixes excluded by the group heuristic of the cell parser
(`seg_code.startswith(('MSH', 'PID', 'EVN'))`). -/
def cellLeafCodes : List String := ["MSH", "PID", "EVN"]

/-- Leaf-code prefixes excluded by the group heuristic of the text parser. -/
def textLeafCodes : List String :=
  ["MSH", "EVN", "PID", "PV1", "NK1", "OBX", "ORC", "OBR", "RXE", "RXR", "RXA", "RXC"]

/-- Embedding of `_detect_hierarchy_level` (source lines 620-655): the level
is `padding_left // 16`, and the returned stack is the incoming stack
truncated to that level when the level decreased, otherwise unchanged.
The Python rebinds a local name when slicing, so the caller's list object
is never mutated; the embedding returns the value the caller receives. -/
def detectHierarchyLevel (paddingPx : Nat) (stack : List String) : Nat × List String :=
  let hl := paddingPx / 16
  (hl, if hl < stack.length then stack.take hl else stack)

/-- Line selector of the expandable-group branch of `_parse_row_text`: the
first line that strips to something nonempty and not a UI token. -/
def pickGroupLine (l : String) : Option String :=
  if pyStrip l ≠ "" ∧ pyStrip l ≠ "chevron_right" ∧ pyStrip l ≠ "expand_more" ∧
     pyStrip l ≠ "expand_less" then some (pyStrip l)
  else none

/-- Description taken from the second row line when it starts with a dash
(source lines 573-579 of `_parse_row_text`). -/
def leafDescFromSecond (rest : List String) : String :=
  match rest with
  | [] => ""
  | l1 :: _ =>
    if startsWithStr (pyStrip l1) "- " then pyStrip (strDrop (pyStrip l1) 2)
    else if startsWithStr (pyStrip l1) " - " then pyStrip (strDrop (pyStrip l1) 3)
    else ""

/-- Code and description of a leaf row (source lines 566-585): the first line
is the code unless no description was found on the second line and the first
line contains `" - "`, in which case it is split on the first occurrence. -/
def leafCodeDesc (l0 : String) (rest : List String) : String × String :=
  if leafDescFromSecond rest = "" then
    match splitOnFirstSub (pyStrip l0) " - " with
    | some (a, b) => (pyStrip a, pyStrip b)
    | none => (pyStrip l0, leafDescFromSecond rest)
  else (pyStrip l0, leafDescFromSecond rest)

/-- Scan of the remaining lines for optionality and repeatability markers
(source lines 593-598): the last matching line of each kind wins, with
defaults `("R", "-")`. -/
def textOptRep (rest : List String) : String × String :=
  rest.foldl
    (fun (p : String × String) l =>
      if pyStrip l = "R" ∨ pyStrip l = "O" ∨ pyStrip l = "C" then (pyStrip l, p.2)
      else if pyStrip l = "-" ∨ pyStrip l = "∞" ∨ pyStrip l = "*" then (p.1, pyStrip l)
      else p)
    ("R", "-")

/-- Group heuristic of `_parse_row_text` (source lines 601-603). -/
def textIsGroup (segCode : String) : Bool :=
  pyIsUpper segCode && decide (3 < segCode.length) &&
    !(startsWithAny segCode textLeafCodes)

/-- Core of `_parse_row_text` (source lines 521-618), applied to the already
stripped row text and the padding pixels. Follows the Python control flow
branch by branch: empty text, the expandable-group branch, the header-row
filter, first-line/second-line code & description parsing, the segment-code
filter, the optionality/repeatability line scan, and the group heuristic. -/
def parseTextCore (fullText : String) (paddingPx : Nat) (idx : Nat)
    (stack : List String) : Option Segment :=
  if fullText = "" then none
  else if containsSub fullText "chevron_right" || containsSub fullText "expand_more" then
    match (splitLines fullText).findSome? pickGroupLine with
    | some segCode =>
      some { segment_code := segCode, segment_desc := segCode ++ " group",
             optionality := "R", repeatability := "inf", is_group := true,
             group_path := (detectHierarchyLevel paddingPx stack).2,
             level := (detectHierarchyLevel paddingPx stack).1,
             order_index := idx }
    | none => none
  else if pyUpper fullText = "SEGMENT" ∨ pyUpper fullText = "OPTIONALITY" ∨
          pyUpper fullText = "REPEATABILITY" then none
  else
    match splitLines fullText with
    | [] => none
    | l0 :: rest =>
      if pyStrip l0 = "" then none
      else if (leafCodeDesc l0 rest).1 = "" ∨ (leafCodeDesc l0 rest).1.length < 2 ∨
              (leafCodeDesc l0 rest).1 = "chevron_right" ∨
              (leafCodeDesc l0 rest).1 = "expand_more" ∨
              (leafCodeDesc l0 rest).1 = "expand_less" then none
      else
        some { segment_code := (leafCodeDesc l0 rest).1,
               segment_desc := (leafCodeDesc l0 rest).2,
               optionality := (textOptRep rest).1,
               repeatability := (textOptRep rest).2,
               is_group := textIsGroup (leafCodeDesc l0 rest).1,
               group_path := (detectHierarchyLevel paddingPx stack).2,
               level := (detectHierarchyLevel paddingPx stack).1,
               order_index := idx }

/-- Embedding of `_parse_row_text`: strip the row text, then run the core. -/
def parseRowText (row : Row) (idx : Nat) (stack : List String) : Option Segment :=
  parseTextCore (pyStrip row.text) row.paddingPx idx stack

/-- Code and description of the first cell, split on the first `" - "`
(source lines 478-485). -/
def cellCodeDesc (c0 : String) : String × String :=
  match splitOnFirstSub (pyStrip c0) " - " with
  | some (a, b) => (pyStrip a, pyStrip b)
  | none => (pyStrip c0, "")

/-- Group heuristic of the cell parser (source line 492). -/
def cellIsGroup (segCode : String) : Bool :=
  pyIsUpper segCode && decide (3 < segCode.length) &&
    !(startsWithAny segCode cellLeafCodes)

/-- Optionality from the second cell when it is one of `R`, `O`, `C`
(source lines 494-496). -/
def cellOpt (rest : List String) : String :=
  match rest with
  | [] => "-"
  | c1 :: _ =>
    if pyStrip c1 = "R" ∨ pyStrip c1 = "O" ∨ pyStrip c1 = "C" then pyStrip c1
    else "-"

/-- Repeatability from the third cell when it is one of `-`, `∞`, `*`
(source lines 498-500). -/
def cellRep (rest : List String) : String :=
  match rest.drop 1 with
  | [] => "-"
  | c2 :: _ =>
    if pyStrip c2 = "-" ∨ pyStrip c2 = "∞" ∨ pyStrip c2 = "*" then pyStrip c2
    else "-"

/-- Cell-based branch of `_extract_segment_from_row` (source lines 475-515):
first cell split on `" - "` into code and description, UI-token filter,
group heuristic, optionality from the second cell, repeatability from the
third, minimum code length, then the record with `level = len(group_stack)`
and `group_path = group_stack.copy()`. -/
def parseCellsRow (cells : List String) (idx : Nat) (stack : List String) :
    Option Segment :=
  match cells with
  | [] => none
  | c0 :: rest =>
    if (cellCodeDesc c0).1 = "chevron_right" ∨ (cellCodeDesc c0).1 = "expand_more" ∨
       (cellCodeDesc c0).1 = "expand_less" ∨ (cellCodeDesc c0).1 = "" then none
    else if (cellCodeDesc c0).1.length < 2 then none
    else
      some { segment_code := (cellCodeDesc c0).1, segment_desc := (cellCodeDesc c0).2,
             optionality := cellOpt rest, repeatability := cellRep rest,
             is_group := cellIsGroup (cellCodeDesc c0).1,
             group_path := stack, level := stack.length, order_index := idx }

/-- Embedding of `_extract_segment_from_row` (source lines 445-519): use the
cell parser when any cell selector matched, else fall back to text parsing. -/
def extractSegmentFromRow (row : Row) (idx : Nat) (stack : List String) :
    Option Segment :=
  match row.cells with
  | [] => parseRowText row idx stack
  | _ :: _ => parseCellsRow row.cells idx stack

/-! ## The flatten pass of `expand_groups`

State of the per-row loop at source lines 415-441: the emitted segment
list, the running `order_index`, and the `group_stack`. Exceptions inside
the Python loop body only skip the offending row; the embedding is total,
so a row contributes either one record and a state update or nothing. -/

/-- Loop state of the second pass of `expand_groups`. -/
structure FlattenState where
  segments : List Segment
  order_index : Nat
  group_stack : List String
deriving Repr, DecidableEq

/-- One iteration of the row loop of `expand_groups` (source lines 418-441):
extract a record; when one is returned, append it, advance `order_index`,
and — only when the record is marked as a group — truncate the stack to the
record's `level` (when that level is smaller) and push the record's code. -/
def processRow (st : FlattenState) (row : Row) : FlattenState :=
  match extractSegmentFromRow row st.order_index st.group_stack with
  | none => st
  | some sd =>
    if sd.is_group then
      { segments := st.segments ++ [sd], order_index := st.order_index + 1,
        group_stack :=
          (if sd.level < st.group_stack.length then st.group_stack.take sd.level
           else st.group_stack) ++ [sd.segment_code] }
    else
      { segments := st.segments ++ [sd], order_index := st.order_index + 1,
        group_stack := st.group_stack }

/-- The row loop of `expand_groups`, folded over the row list in DOM order. -/
def flattenAux (st : FlattenState) : List Row → FlattenState
  | [] => st
  | r :: rs => flattenAux (processRow st r) rs

/-- Segment extraction of `expand_groups`: run the row loop from the empty
state (`order_index = 0`, `group_stack = []`) and return the records. -/
def flattenRows (rows : List Row) : List Segment :=
  (flattenAux ⟨[], 0, []⟩ rows).segments

/-! ## Shape lemmas for the row parsers -/

/-- A line accepted by `pickGroupLine` is nonempty and not a UI token. -/
theorem pickGroupLine_spec {l s : String} (h : pickGroupLine l = some s) :
    s ≠ "" ∧ s ≠ "chevron_right" ∧ s ≠ "expand_more" ∧ s ≠ "expand_less" := by
  unfold pickGroupLine at h
  split at h
  · injection h with h
    subst h
    assumption
  · exact absurd h (by simp)

/-- Every record the cell parser returns carries the untruncated stack as its
path, the stack length as its level, the given index, and a code of length
at least two that is not a UI token. -/
theorem parseCellsRow_shape {cells : List String} {idx : Nat}
    {stack : List String} {r : Segment}
    (h : parseCellsRow cells idx stack = some r) :
    r.group_path = stack ∧ r.level = stack.length ∧ r.order_index = idx ∧
    r.segment_code ≠ "" ∧ r.segment_code ∉ uiTokens ∧
    2 ≤ r.segment_code.length := by
  unfold parseCellsRow at h
  split at h
  · exact absurd h (by simp)
  · split at h
    · exact absurd h (by simp)
    · split at h
      · exact absurd h (by simp)
      · injection h with h
        subst h
        rename_i hTok hLen
        push_neg at hTok
        refine ⟨rfl, rfl, rfl, hTok.2.2.2, ?_, Nat.le_of_not_lt hLen⟩
        simp only [uiTokens, List.mem_cons, List.not_mem_nil]
        push_neg
        exact ⟨hTok.1, hTok.2.1, hTok.2.2.1, fun hf => hf⟩

/-- Every record the text parser returns carries the truncated stack snapshot
as its path, the padding-derived level, the given index, and a nonempty
code that is not a UI token; records not marked as groups additionally have
a code of length at least two. -/
theorem parseTextCore_shape {ft : String} {pad idx : Nat}
    {stack : List String} {r : Segment}
    (h : parseTextCore ft pad idx stack = some r) :
    r.group_path = (if r.level < stack.length then stack.take r.level else stack) ∧
    r.level = pad / 16 ∧ r.order_index = idx ∧
    r.segment_code ≠ "" ∧ r.segment_code ∉ uiTokens ∧
    (r.is_group = false → 2 ≤ r.segment_code.length) := by
  unfold parseTextCore at h
  split at h
  · exact absurd h (by simp)
  · split at h
    · -- expandable-group branch
      split at h
      · injection h with h
        subst h
        rename_i hpick
        obtain ⟨_, _, hp⟩ := List.exists_of_findSome?_eq_some hpick
        obtain ⟨h1, h2, h3, h4⟩ := pickGroupLine_spec hp
        refine ⟨by simp [detectHierarchyLevel], by simp [detectHierarchyLevel],
                rfl, h1, ?_, fun hf => by simp at hf⟩
        simp only [uiTokens, List.mem_cons, List.not_mem_nil]
        push_neg
        exact ⟨h2, h3, h4, fun hf => hf⟩
      · exact absurd h (by simp)
    · split at h
      · exact absurd h (by simp)
      · -- leaf branch
        split at h
        · exact absurd h (by simp)
        · split at h
          · exact absurd h (by simp)
          · split at h
            · exact absurd h (by simp)
            · injection h with h
              subst h
              rename_i hCode
              push_neg at hCode
              refine ⟨by simp [detectHierarchyLevel], by simp [detectHierarchyLevel],
                      rfl, hCode.1, ?_, fun _ => hCode.2.1⟩
              simp only [uiTokens, List.mem_cons, List.not_mem_nil]
              push_neg
              exact ⟨hCode.2.2.1, hCode.2.2.2.1, hCode.2.2.2.2, fun hf => hf⟩

/-- Combined shape lemma for `_extract_segment_from_row`: every emitted
record snapshots the stack truncated at its own level (the cell parser sets
`level` to the stack length, making the truncation vacuous), stores the
given index, and carries a valid code. -/
theorem extractSegment_shape {row : Row} {idx : Nat} {stack : List String}
    {r : Segment}
    (h : extractSegmentFromRow row idx stack = some r) :
    r.group_path = (if r.level < stack.length then stack.take r.level else stack) ∧
    r.order_index = idx ∧
    r.segment_code ≠ "" ∧ r.segment_code ∉ uiTokens ∧
    (r.is_group = false → 2 ≤ r.segment_code.length) := by
  unfold extractSegmentFromRow at h
  split at h
  · obtain ⟨h1, h2, h3, h4, h5, h6⟩ := parseTextCore_shape h
    exact ⟨h1, h3, h4, h5, h6⟩
  · obtain ⟨h1, h2, h3, h4, h5, h6⟩ := parseCellsRow_shape h
    refine ⟨?_, h3, h4, h5, fun _ => h6⟩
    rw [h1, h2]
    simp

/-- A row from which no record is extracted leaves the loop state unchanged. -/
theorem processRow_none {st : FlattenState} {row : Row}
    (h : extractSegmentFromRow row st.order_index st.group_stack = none) :
    processRow st row = st := by
  unfold processRow
  rw [h]

/-- A row from which a record is extracted appends it, advances the index,
and updates the stack exactly when the record is marked as a group. -/
theorem processRow_some {st : FlattenState} {row : Row} {sd : Segment}
    (h : extractSegmentFromRow row st.order_index st.group_stack = some sd) :
    processRow st row =
      if sd.is_group = true then
        { segments := st.segments ++ [sd], order_index := st.order_index + 1,
          group_stack :=
            (if sd.level < st.group_stack.length then st.group_stack.take sd.level
             else st.group_stack) ++ [sd.segment_code] }
      else
        { segments := st.segments ++ [sd], order_index := st.order_index + 1,
          group_stack := st.group_stack } := by
  unfold processRow
  rw [h]

/-- The row loop distributes over list concatenation. -/
theorem flattenAux_append (st : FlattenState) (r1 r2 : List Row) :
    flattenAux st (r1 ++ r2) = flattenAux (flattenAux st r1) r2 := by
  induction r1 generalizing st with
  | nil => rfl
  | cons r rs ih => exact ih (processRow st r)

/-- Running the row loop only appends records, advances `order_index` by the
number of appended records, and stamps them with consecutive indices
starting at the incoming `order_index`. -/
theorem flattenAux_emits (rows : List Row) :
    ∀ st : FlattenState, ∃ t : List Segment,
      (flattenAux st rows).segments = st.segments ++ t ∧
      (flattenAux st rows).order_index = st.order_index + t.length ∧
      t.map Segment.order_index = List.range' st.order_index t.length := by
  induction rows with
  | nil =>
    intro st
    exact ⟨[], by simp [flattenAux], by simp [flattenAux], by simp⟩
  | cons r rs ih =>
    intro st
    match hx : extractSegmentFromRow r st.order_index st.group_stack with
    | none =>
      have hp : processRow st r = st := processRow_none hx
      obtain ⟨t, h1, h2, h3⟩ := ih st
      refine ⟨t, ?_, ?_, h3⟩
      · show (flattenAux (processRow st r) rs).segments = _
        rw [hp]; exact h1
      · show (flattenAux (processRow st r) rs).order_index = _
        rw [hp]; exact h2
    | some sd =>
      have hoi : sd.order_index = st.order_index := (extractSegment_shape hx).2.1
      have hp : (processRow st r).segments = st.segments ++ [sd] ∧
          (processRow st r).order_index = st.order_index + 1 := by
        rw [processRow_some hx]
        split <;> exact ⟨rfl, rfl⟩
      obtain ⟨t, h1, h2, h3⟩ := ih (processRow st r)
      refine ⟨sd :: t, ?_, ?_, ?_⟩
      · show (flattenAux (processRow st r) rs).segments = _
        rw [h1, hp.1]
        simp
      · show (flattenAux (processRow st r) rs).order_index = _
        rw [h2, hp.2]
        simp only [List.length_cons]
        omega
      · rw [List.map_cons, h3, hp.2, hoi, List.length_cons]
        rfl

/-! ## Claims about the flatten pass -/

/-- Claim C4: for every flatten pass over a fixed row list, the `order_index`
fields of the emitted records are exactly `0..k-1` in input order, where `k`
is the number of emitted records; skipped rows consume no index. -/
theorem c4_order_index_exact (rows : List Row) :
    (flattenRows rows).map Segment.order_index =
      List.range (flattenRows rows).length := by
  obtain ⟨t, h1, h2, h3⟩ := flattenAux_emits rows ⟨[], 0, []⟩
  unfold flattenRows
  rw [h1]
  simp only [List.nil_append]
  rw [List.range_eq_range']
  exact h3

/-- Claim C5: a group header's record is emitted before its code is pushed,
so the stack right after processing a group row is exactly the record's own
`group_path` snapshot extended with the record's code (the snapshot never
includes the push performed for the row itself); and the records of a
flatten pass are append-only — processing further rows never alters an
already emitted record. -/
theorem c5_push_after_emit_and_snapshot :
    (∀ (st : FlattenState) (row : Row) (r : Segment),
        extractSegmentFromRow row st.order_index st.group_stack = some r →
        r.is_group = true →
        (processRow st row).group_stack = r.group_path ++ [r.segment_code])
    ∧ (∀ rows more : List Row, ∃ t : List Segment,
        flattenRows (rows ++ more) = flattenRows rows ++ t) := by
  constructor
  · intro st row r hx hg
    have hgp := (extractSegment_shape hx).1
    rw [processRow_some hx]
    simp only [hg, if_true]
    rw [← hgp]
  · intro rows more
    obtain ⟨t, h1, _, _⟩ := flattenAux_emits more (flattenAux ⟨[], 0, []⟩ rows)
    refine ⟨t, ?_⟩
    unfold flattenRows
    rw [flattenAux_append, h1]

/-- Witness for C5 at a concrete group row: a `chevron_right ORDER` row at
padding 16 processed over stack `["PATIENT"]`. -/
def c5wRow : Row := ⟨[], "chevron_right\nORDER", 16⟩

/-- Witness state for C5. -/
def c5wState : FlattenState := ⟨[], 3, ["PATIENT"]⟩

/-- Witness record for C5. -/
def c5wRec : Segment :=
  ⟨"ORDER", "ORDER group", "R", "inf", true, ["PATIENT"], 1, 3⟩

/-- Witness: C5 instantiated at the concrete `ORDER` group row. -/
theorem c5_witness :
    (processRow c5wState c5wRow).group_stack =
      c5wRec.group_path ++ [c5wRec.segment_code] :=
  c5_push_after_emit_and_snapshot.1 c5wState c5wRow c5wRec (by decide) (by decide)

/-- Counterexample input for C2: a leaf row (`MSH`) at indent level 0. -/
def c2Row : Row := ⟨[], "MSH - Message header segment", 0⟩

/-- Counterexample state for C2: one open group on the stack. -/
def c2State : FlattenState := ⟨[], 7, ["GA"]⟩

/-- Record the parser emits for `c2Row` in state `c2State`. -/
def c2Rec : Segment := ⟨"MSH", "Message header segment", "R", "-", false, [], 0, 7⟩

/-- Claim C2 counterexample: a leaf row whose level (0) is strictly below the
current stack length (1) is emitted, yet the group stack is NOT truncated to
its level — it still holds `["GA"]` after the row, contradicting the claim
that every such row truncates the stack (and that a level-0 row empties it).
Only group-header rows truncate the persistent stack; leaf rows leave it
unchanged (the truncation at source lines 431-432 sits under the
`is_group` guard at line 427). -/
theorem c2_counterexample :
    extractSegmentFromRow c2Row c2State.order_index c2State.group_stack = some c2Rec ∧
    c2Rec.level < c2State.group_stack.length ∧
    (processRow c2State c2Row).group_stack = ["GA"] ∧
    (processRow c2State c2Row).group_stack ≠
      c2State.group_stack.take c2Rec.level := by decide

/-- Claim C2 (amended): when an emitted row's level is strictly below the
current stack length, the truncation to exactly `level` entries is applied
to the emitted record's `group_path` snapshot (recomputed per row by
`_detect_hierarchy_level`), while the persistent stack is truncated — and
then pushed onto — only when the row is a group header; a leaf row leaves
the persistent stack unchanged. -/
theorem c2_truncation_amended (st : FlattenState) (row : Row) (r : Segment)
    (h : extractSegmentFromRow row st.order_index st.group_stack = some r)
    (hl : r.level < st.group_stack.length) :
    r.group_path = st.group_stack.take r.level ∧
    (processRow st row).group_stack =
      (if r.is_group = true then st.group_stack.take r.level ++ [r.segment_code]
       else st.group_stack) := by
  have hgp := (extractSegment_shape h).1
  rw [if_pos hl] at hgp
  refine ⟨hgp, ?_⟩
  rw [processRow_some h]
  by_cases hg : r.is_group = true
  · simp only [hg, if_true, if_pos hl]
  · have hg' : r.is_group = false := by
      cases hgb : r.is_group
      · rfl
      · exact absurd hgb hg
    simp only [hg', if_false, Bool.false_eq_true]

/-- Witness row for the amended C2: a group row at level 0 over a depth-2
stack. -/
def c2wRow : Row := ⟨[], "chevron_right\nPATIENT", 0⟩

/-- Witness state for the amended C2. -/
def c2wState : FlattenState := ⟨[], 0, ["GA", "GB"]⟩

/-- Witness record for the amended C2. -/
def c2wRec : Segment := ⟨"PATIENT", "PATIENT group", "R", "inf", true, [], 0, 0⟩

/-- Witness: the amended C2 instantiated at the concrete `PATIENT` group row. -/
theorem c2_truncation_witness :
    c2wRec.group_path = c2wState.group_stack.take c2wRec.level ∧
    (processRow c2wState c2wRow).group_stack =
      (if c2wRec.is_group = true
       then c2wState.group_stack.take c2wRec.level ++ [c2wRec.segment_code]
       else c2wState.group_stack) :=
  c2_truncation_amended c2wState c2wRow c2wRec (by decide) (by decide)

/-- Claim C7: a row whose text strips to nothing (blank row) or consists of
the bare UI affordance token `chevron_right` yields no record and leaves the
flatten state untouched — it is silently skipped and consumes no index. The
embedding is total, so no error is raised either. -/
theorem c7_ui_rows_skipped (st : FlattenState) (row : Row)
    (hc : row.cells = [])
    (ht : pyStrip row.text = "" ∨ pyStrip row.text = "chevron_right") :
    extractSegmentFromRow row st.order_index st.group_stack = none ∧
    processRow st row = st := by
  have hex : extractSegmentFromRow row st.order_index st.group_stack = none := by
    unfold extractSegmentFromRow
    rw [hc]
    show parseRowText row st.order_index st.group_stack = none
    unfold parseRowText
    rcases ht with h | h
    · rw [h]
      rfl
    · rw [h]
      unfold parseTextCore
      rw [if_neg (by decide : ¬("chevron_right" : String) = "")]
      rw [if_pos (by decide :
        (containsSub "chevron_right" "chevron_right" ||
         containsSub "chevron_right" "expand_more") = true)]
      rw [show (splitLines "chevron_right").findSome? pickGroupLine = none
        from by decide]
  exact ⟨hex, processRow_none hex⟩

/-- Witness: C7 instantiated at a bare `chevron_right` row with nonzero
padding over a nonempty stack. -/
theorem c7_witness :
    extractSegmentFromRow ⟨[], "chevron_right", 20⟩
        (FlattenState.mk [] 2 ["GA"]).order_index
        (FlattenState.mk [] 2 ["GA"]).group_stack = none ∧
    processRow ⟨[], 2, ["GA"]⟩ ⟨[], "chevron_right", 20⟩ = ⟨[], 2, ["GA"]⟩ :=
  c7_ui_rows_skipped ⟨[], 2, ["GA"]⟩ ⟨[], "chevron_right", 20⟩ rfl
    (Or.inr (by decide))

/-- Counterexample row for C10: an expandable-group row whose visible label
is the single character `A`. -/
def c10Row : Row := ⟨[], "chevron_right\nA", 0⟩

/-- Record the text parser emits for `c10Row`. -/
def c10Rec : Segment := ⟨"A", "A group", "R", "inf", true, [], 0, 0⟩

/-- Claim C10 counterexample: the expandable-group branch of `_parse_row_text`
(source lines 532-550) only filters empty lines and UI tokens, so a one
character group label passes through and an emitted record carries a
`segment_code` of length 1 < 2, refuting the claimed length bound. -/
theorem c10_counterexample :
    extractSegmentFromRow c10Row 0 [] = some c10Rec ∧
    c10Rec.segment_code.length < 2 := by decide

/-- Claim C10 (amended): every record either structured parser returns has a
nonempty `segment_code` that is none of the UI affordance tokens; the length
bound of at least 2 additionally holds for every record not marked as a
group (the expandable-group branch of the text parser guarantees only
nonemptiness and non-UI-ness for group labels). -/
theorem c10_code_amended (row : Row) (idx : Nat) (stack : List String)
    (r : Segment)
    (h : extractSegmentFromRow row idx stack = some r) :
    r.segment_code ≠ "" ∧ r.segment_code ∉ uiTokens ∧
    (r.is_group = false → 2 ≤ r.segment_code.length) := by
  obtain ⟨_, _, h3, h4, h5⟩ := extractSegment_shape h
  exact ⟨h3, h4, h5⟩

/-- Witness row for the amended C10: a cell-based `PID` row. -/
def c10wRow : Row := ⟨["PID - Patient identification", "O"], "", 0⟩

/-- Witness record for the amended C10. -/
def c10wRec : Segment := ⟨"PID", "Patient identification", "O", "-", false, [], 0, 4⟩

/-- Witness: the amended C10 instantiated at the concrete `PID` cell row. -/
theorem c10_witness :
    c10wRec.segment_code ≠ "" ∧ c10wRec.segment_code ∉ uiTokens ∧
    (c10wRec.is_group = false → 2 ≤ c10wRec.segment_code.length) :=
  c10_code_amended c10wRow 4 [] c10wRec (by decide)

/-! ## Virtualized-list URL discovery (`collect_event_urls`)

A listing page is embedded as the link `href`s of the elements matching
`SEL_EVENT_LINKS` at page load (`initialLinks`, governing the initial
`WebDriverWait` at source lines 126-128), whether the CDK virtual scroll
viewport is present, the viewport geometry, the links mounted at each
scroll offset, the links mounted after the final scroll to the absolute
bottom, and the links collected by the non-virtualized fallback path.
Exception propagation is embedded in `Except`: a `WebDriverWait` that
never succeeds raises `TimeoutException`. -/

/-- Exceptions distinguished by the scraper's retry policy. -/
inductive PErr where
  | timeoutExc
  | otherExc (msg : String)
deriving Repr, DecidableEq

/-- The listing base URL (constant `BASE_URL` of the source). -/
def BASE_URL : String := "https://hl7-definition.caristix.com/v2/HL7v2.3/TriggerEvents"

/-- URL filter applied to every collected href (source lines 168-169):
truthy, not the base listing URL after stripping trailing slashes, and
containing `/TriggerEvents/`. -/
def validUrl (u : String) : Bool :=
  !(u == "") && !(pyRstripSlash u == BASE_URL) && containsSub u "/TriggerEvents/"

/-- Insert into a duplicate-free list, mirroring Python set insertion. -/
def setInsert (acc : List String) (u : String) : List String :=
  if u ∈ acc then acc else acc ++ [u]

/-- Python `set.update`: fold insertion over the new elements. -/
def setUnion (acc urls : List String) : List String := urls.foldl setInsert acc

/-- Insertion step of string sorting. -/
def insertSorted (u : String) : List String → List String
  | [] => [u]
  | v :: vs => if u ≤ v then u :: v :: vs else v :: insertSorted u vs

/-- Python `sorted(...)` on strings. -/
def sortUrls (l : List String) : List String := l.foldr insertSorted []

/-- One listing page as observed by `collect_event_urls`. -/
structure ListingPage where
  initialLinks : List String
  hasViewport : Bool
  scrollHeight : Int
  clientHeight : Int
  linksAt : Int → List String
  bottomLinks : List String
  fallbackLinks : List String

/-- Accumulator of the virtual-scroll loop (source lines 150-154): the
deduplicated URLs, the `no_new_urls_count` stagnation counter, and the
number of loop iterations performed (implicit in the Python trace). -/
structure ScrollAcc where
  urls : List String
  stagnation : Nat
  iters : Nat
deriving Repr, DecidableEq

/-- The scroll loop of `collect_event_urls` (source lines 158-181):
while `scroll_position <= max_position and no_new_urls_count < 5`, collect
the links mounted at the current offset, filter, union into the set,
increment the stagnation counter when the set did not grow (reset it
otherwise), and advance by `scroll_step`. The `fuel` argument only bounds
recursion depth; the caller passes enough fuel that the loop always exits
through its own condition (positions advance by at least one per iteration
when the step is positive, and the stagnation counter exits within 6
iterations when the step is zero). -/
def scrollLoop (p : ListingPage) (step maxPos : Int) :
    Nat → Int → ScrollAcc → ScrollAcc
  | 0, _, acc => acc
  | fuel + 1, pos, acc =>
    if pos ≤ maxPos ∧ acc.stagnation < 5 then
      scrollLoop p step maxPos fuel (pos + step)
        { urls := setUnion acc.urls ((p.linksAt pos).filter validUrl),
          stagnation :=
            if (setUnion acc.urls ((p.linksAt pos).filter validUrl)).length =
                acc.urls.length
            then acc.stagnation + 1 else 0,
          iters := acc.iters + 1 }
    else acc

/-- The scroll loop as `collect_event_urls` runs it: `step` is half the
viewport height, `max_position` is `scrollHeight - clientHeight`, and the
loop starts at offset 0 with an empty set. -/
def scrollLoopRun (p : ListingPage) : ScrollAcc :=
  scrollLoop p (p.clientHeight / 2) (p.scrollHeight - p.clientHeight)
    ((p.scrollHeight - p.clientHeight).toNat + 7) 0 ⟨[], 0, 0⟩

/-- The fallback path `_fallback_collect_urls` (source lines 197-221): after
the height-stability scrolling (which only spends time and does not affect
the collected values), gather the links, filter, deduplicate and sort. -/
def fallbackCollect (p : ListingPage) : List String :=
  sortUrls (setUnion [] (p.fallbackLinks.filter validUrl))

/-- Embedding of `collect_event_urls` (source lines 120-195): the initial
presence wait on the event-link selector times out when no element matches
(raising `TimeoutException`); without a virtual-scroll viewport the
fallback path runs; otherwise the scroll loop runs, a final
scroll-to-bottom pass unions in the links mounted at the absolute bottom,
and the set is sorted. -/
def collect_event_urls (p : ListingPage) : Except PErr (List String) :=
  if p.initialLinks.isEmpty then .error .timeoutExc
  else if p.hasViewport = false then .ok (fallbackCollect p)
  else
    .ok (sortUrls (setUnion (scrollLoopRun p).urls (p.bottomLinks.filter validUrl)))

/-- When every mounted link fails the URL filter, the scroll loop never adds
a URL. -/
theorem scrollLoop_no_valid (p : ListingPage) (step maxPos : Int)
    (h : ∀ pos : Int, (p.linksAt pos).filter validUrl = []) :
    ∀ (fuel : Nat) (pos : Int) (acc : ScrollAcc),
      (scrollLoop p step maxPos fuel pos acc).urls = acc.urls := by
  intro fuel
  induction fuel with
  | zero => intro pos acc; rfl
  | succ n ih =>
    intro pos acc
    unfold scrollLoop
    split
    · rw [h pos]
      exact ih (pos + step) _
    · rfl

/-- Page on which no element ever matches the event-link selector. -/
def c1Page : ListingPage :=
  { initialLinks := [], hasViewport := true, scrollHeight := 5000,
    clientHeight := 500, linksAt := fun _ => [], bottomLinks := [],
    fallbackLinks := [] }

/-- Claim C1 counterexample: on a page where the link selector never matches
any element, `collect_event_urls` does not return an empty set — the
initial `WebDriverWait` on the selector (source lines 126-128) times out
and the call raises `TimeoutException` (re-raised after the tenacity
retries are exhausted). -/
theorem c1_counterexample : collect_event_urls c1Page = .error .timeoutExc := rfl

/-- Claim C1 (amended): when at least one element matches the link selector
on initial load (so the presence wait succeeds) but no collected href ever
passes the trigger-event URL filter, `collect_event_urls` completes
normally with an empty list — on both the virtual-scroll path and the
fallback path; only a selector that matches nothing at load time raises. -/
theorem c1_empty_amended (p : ListingPage)
    (h0 : p.initialLinks ≠ [])
    (h1 : ∀ (pos : Int) (u : String), u ∈ p.linksAt pos → validUrl u = false)
    (h2 : ∀ u ∈ p.bottomLinks, validUrl u = false)
    (h3 : ∀ u ∈ p.fallbackLinks, validUrl u = false) :
    collect_event_urls p = .ok [] := by
  unfold collect_event_urls
  rw [if_neg (by simpa [List.isEmpty_iff] using h0)]
  by_cases hv : p.hasViewport = false
  · rw [if_pos hv]
    unfold fallbackCollect
    rw [List.filter_eq_nil_iff.mpr (fun a ha => by simp [h3 a ha])]
    rfl
  · rw [if_neg hv]
    have hbot : p.bottomLinks.filter validUrl = [] :=
      List.filter_eq_nil_iff.mpr (fun a ha => by simp [h2 a ha])
    have hurls : (scrollLoopRun p).urls = [] :=
      scrollLoop_no_valid p _ _
        (fun pos => List.filter_eq_nil_iff.mpr
          (fun a ha => by simp [h1 pos a ha])) _ _ _
    rw [hbot, hurls]
    rfl

/-- Witness page for the amended C1: links are present but none is a
trigger-event URL. -/
def c1wPage : ListingPage :=
  { initialLinks := ["https://hl7-definition.caristix.com/v2/HL7v2.3/Segments"],
    hasViewport := true, scrollHeight := 1000, clientHeight := 400,
    linksAt := fun _ => ["https://hl7-definition.caristix.com/v2/HL7v2.3/Segments"],
    bottomLinks := [], fallbackLinks := [] }

/-- Witness: the amended C1 at a concrete page whose only link is a
non-trigger-event URL. -/
theorem c1_witness : collect_event_urls c1wPage = .ok [] :=
  c1_empty_amended c1wPage (by decide)
    (fun pos u hu => by
      simp only [c1wPage, List.mem_singleton] at hu
      subst hu
      decide)
    (fun u hu => nomatch hu)
    (fun u hu => nomatch hu)

/-- The scroll loop performs at most `k` further iterations once
`pos + step * k` overshoots `max_position`, for a positive step. -/
theorem scrollLoop_iters_le (p : ListingPage) (step maxPos : Int) :
    ∀ (fuel : Nat) (pos : Int) (k : Nat) (acc : ScrollAcc),
      maxPos < pos + step * k →
      (scrollLoop p step maxPos fuel pos acc).iters ≤ acc.iters + k := by
  intro fuel
  induction fuel with
  | zero =>
    intro pos k acc _
    exact Nat.le_add_right _ _
  | succ n ih =>
    intro pos k acc hk
    unfold scrollLoop
    split
    · rename_i hcond
      cases k with
      | zero =>
        exfalso
        simp only [Nat.cast_zero, mul_zero, add_zero] at hk
        omega
      | succ k' =>
        have hk' : maxPos < (pos + step) + step * (k' : Int) := by
          have hc : ((k' + 1 : Nat) : Int) = (k' : Int) + 1 := by push_cast; ring
          rw [hc, mul_add, mul_one] at hk
          linarith
        refine le_trans (ih (pos + step) k' _ hk') ?_
        show acc.iters + 1 + k' ≤ acc.iters + (k' + 1)
        omega
    · exact Nat.le_add_right _ _

/-- Claim C3: the stagnation counter is incremented exactly when an iteration
adds zero new URLs and reset to zero otherwise (second conjunct, stating the
one-step unfolding of the loop); the loop exits as soon as the counter has
reached 5, regardless of the scroll position (first conjunct); and on a page
with `clientHeight = 500` and `scrollHeight = 5000` (step 250, max position
4500) the loop performs at most `(5000-500)/250 + 1 = 19` iterations before
the final scroll-to-bottom pass (third conjunct). -/
theorem c3_stagnation_loop :
    (∀ (p : ListingPage) (step maxPos : Int) (fuel : Nat) (pos : Int)
        (acc : ScrollAcc), 5 ≤ acc.stagnation →
        scrollLoop p step maxPos fuel pos acc = acc)
    ∧ (∀ (p : ListingPage) (step maxPos : Int) (fuel : Nat) (pos : Int)
        (acc : ScrollAcc), pos ≤ maxPos → acc.stagnation < 5 →
        scrollLoop p step maxPos (fuel + 1) pos acc =
          scrollLoop p step maxPos fuel (pos + step)
            { urls := setUnion acc.urls ((p.linksAt pos).filter validUrl),
              stagnation :=
                if (setUnion acc.urls ((p.linksAt pos).filter validUrl)).length =
                    acc.urls.length
                then acc.stagnation + 1 else 0,
              iters := acc.iters + 1 })
    ∧ (∀ p : ListingPage, p.clientHeight = 500 → p.scrollHeight = 5000 →
        (scrollLoopRun p).iters ≤ 19) := by
  refine ⟨?_, ?_, ?_⟩
  · intro p step maxPos fuel pos acc hstag
    cases fuel with
    | zero => rfl
    | succ n =>
      unfold scrollLoop
      rw [if_neg (fun hc => by omega)]
  · intro p step maxPos fuel pos acc hpos hstag
    conv_lhs => rw [scrollLoop]
    rw [if_pos ⟨hpos, hstag⟩]
  · intro p hch hsh
    unfold scrollLoopRun
    rw [hch, hsh]
    have h19 : ((5000 : Int) - 500) < 0 + (500 / 2) * ((19 : Nat) : Int) := by
      norm_num
    exact scrollLoop_iters_le p (500 / 2) (5000 - 500) _ 0 19 _ h19

/-- Witness page for C3: the scenario geometry with no links mounted. -/
def c3wPage : ListingPage :=
  { initialLinks := ["x"], hasViewport := true, scrollHeight := 5000,
    clientHeight := 500, linksAt := fun _ => [], bottomLinks := [],
    fallbackLinks := [] }

/-- Witness: the C3 scenario bound at the concrete page geometry. -/
theorem c3_witness : (scrollLoopRun c3wPage).iters ≤ 19 :=
  c3_stagnation_loop.2.2 c3wPage rfl rfl

/-! ## The expansion phase of `expand_groups`

The expansion loop (source lines 228-384) is driven entirely by element
queries re-issued every round. A control element is embedded as its
`aria-expanded` attribute value plus the success of the three escalating
click strategies (direct `.click()`, JavaScript click, ActionChains); a
round's DOM is a `Snapshot` of the query results, and the mutating DOM
across rounds is a function from the round number (the Python `attempt`
counter) to snapshots. Sleeps are dropped; clicks within one round are
evaluated against that round's snapshot. -/

/-- One clickable control: its `aria-expanded` attribute (none when the
attribute is absent) and whether each click strategy succeeds on it. -/
structure Ctl where
  ariaExpanded : Option String
  direct : Bool
  js : Bool
  chains : Bool
deriving Repr, DecidableEq

/-- One row containing the text `chevron_right` (source lines 252-269):
its inner buttons, whether the row itself carries the
`tree-table-cell-content-with-button` class (strategy 2 appends the row
itself), its `mat-icon-button` descendants, and whether the alternative
direct JS click on the row (source lines 347-356) succeeds. -/
structure ChevRow where
  innerButtons : List Ctl
  hasTreeCellClass : Bool
  selfCtl : Ctl
  matIconButtons : List Ctl
  altClickOk : Bool
deriving Repr, DecidableEq

/-- Query results of one expansion round. -/
structure Snapshot where
  btnAriaFalse : List Ctl
  treeCellBtns : List Ctl
  chevronClassEls : List Ctl
  expandClassEls : List Ctl
  buttons : List Ctl
  chevronRows : List ChevRow
  allClickables : List Ctl
deriving Repr, DecidableEq

/-- The selector cascade of source lines 235-249: the result list of the
first selector that matches anything (`button[aria-expanded='false']`,
`.tree-table-cell-content-with-button button`, `[class*='chevron']`,
`[class*='expand']`, `button`). -/
def selectorExpandables (s : Snapshot) : List Ctl :=
  if s.btnAriaFalse ≠ [] then s.btnAriaFalse
  else if s.treeCellBtns ≠ [] then s.treeCellBtns
  else if s.chevronClassEls ≠ [] then s.chevronClassEls
  else if s.expandClassEls ≠ [] then s.expandClassEls
  else s.buttons

/-- Controls appended per chevron row (source lines 252-269). -/
def chevronExtras (s : Snapshot) : List Ctl :=
  (s.chevronRows.map (fun r =>
    r.innerButtons ++ (if r.hasTreeCellClass then [r.selfCtl] else []) ++
      r.matIconButtons)).flatten

/-- The full `expandables` list a round iterates over. -/
def expandablesOf (s : Snapshot) : List Ctl :=
  selectorExpandables s ++ chevronExtras s

/-- Some click strategy succeeds on the control. -/
def clickOk (c : Ctl) : Bool := c.direct || c.js || c.chains

/-- The per-control guard at source lines 277-279: a control whose
`aria-expanded` attribute reads `"true"` is skipped before any click. -/
def notExpanded (c : Ctl) : Bool := !(c.ariaExpanded == some "true")

/-- Number of controls on which a click of some strategy is issued in one
round: every control of the expandable list that is not skipped by the
`aria-expanded == "true"` guard receives at least a direct click attempt. -/
def roundClicks (s : Snapshot) : Nat := (expandablesOf s).countP notExpanded

/-- Whether any click succeeds in the main per-control loop of a round
(setting `any_expanded`). -/
def roundAnyExpanded (s : Snapshot) : Bool :=
  (expandablesOf s).any (fun c => notExpanded c && clickOk c)

/-- Click attempts of the alternative expansion block (source lines
342-370): JS clicks on the first 3 remaining chevron rows and on the first
5 generic clickables. -/
def altClicks (s : Snapshot) : Nat :=
  (s.chevronRows.take 3).length + (s.allClickables.take 5).length

/-- Whether any alternative click succeeds (setting `any_expanded`). -/
def altAnyExpanded (s : Snapshot) : Bool :=
  (s.chevronRows.take 3).any ChevRow.altClickOk ||
    (s.allClickables.take 5).any Ctl.js

/-- The scan/expand loop of `expand_groups` (source lines 233-382), returning
the total number of controls clicked and the number of rounds executed.
`fuel` counts the remaining rounds (`max_attempts - attempt = 15` at entry),
so the `while attempt < max_attempts` guard is the fuel running out. A round
with a successful main-loop click continues; otherwise, when chevron rows
remain, the alternative block runs and the loop continues only if one of its
clicks succeeded; otherwise the loop breaks. -/
def expandLoop (snaps : Nat → Snapshot) : Nat → Nat → Nat → Nat → Nat × Nat
  | 0, _, acts, rounds => (acts, rounds)
  | fuel + 1, attempt, acts, rounds =>
    if roundAnyExpanded (snaps attempt) then
      expandLoop snaps fuel (attempt + 1)
        (acts + roundClicks (snaps attempt)) (rounds + 1)
    else if (snaps attempt).chevronRows ≠ [] then
      if altAnyExpanded (snaps attempt) then
        expandLoop snaps fuel (attempt + 1)
          (acts + roundClicks (snaps attempt) + altClicks (snaps attempt))
          (rounds + 1)
      else (acts + roundClicks (snaps attempt) + altClicks (snaps attempt),
            rounds + 1)
    else (acts + roundClicks (snaps attempt), rounds + 1)

/-- A tree table as `expand_groups` observes it: the per-round query
snapshots of the expansion phase and the final `.flex-segment` row list the
second pass flattens. -/
structure TreeTable where
  snaps : Nat → Snapshot
  rows : List Row

/-- Embedding of `expand_groups` (source lines 223-443): run the bounded
expansion phase (whose observable trace is the pair of clicks attempted and
rounds executed — DOM side effects in Python), then flatten the visible
rows. The function is total: expansion failure never raises, it only stops
clicking. -/
def expand_groups (t : TreeTable) : (Nat × Nat) × List Segment :=
  (expandLoop t.snaps 15 0 0 0, flattenRows t.rows)

/-- The expansion loop executes at most `fuel` further rounds. -/
theorem expandLoop_rounds_le (snaps : Nat → Snapshot) :
    ∀ (fuel attempt acts rounds : Nat),
      (expandLoop snaps fuel attempt acts rounds).2 ≤ rounds + fuel := by
  intro fuel
  induction fuel with
  | zero => intro attempt acts rounds; exact Nat.le_add_right _ _
  | succ n ih =>
    intro attempt acts rounds
    unfold expandLoop
    split
    · exact le_trans (ih (attempt + 1) _ (rounds + 1)) (by omega)
    · split
      · split
        · exact le_trans (ih (attempt + 1) _ (rounds + 1)) (by omega)
        · show rounds + 1 ≤ rounds + (n + 1)
          omega
      · show rounds + 1 ≤ rounds + (n + 1)
        omega

/-- Claim C8: `expand_groups` terminates on every input table — its
scan/expand loop executes at most 15 rounds — and whatever the expansion
phase achieved (including the case in which every strategy failed on every
control), the call does not raise: it proceeds to flatten exactly the rows
that are visible, yielding the best-effort result. -/
theorem c8_expand_terminates (t : TreeTable) :
    (expand_groups t).1.2 ≤ 15 ∧ (expand_groups t).2 = flattenRows t.rows :=
  ⟨expandLoop_rounds_le t.snaps 15 0 0 0, rfl⟩

/-- Control present in the C6 counterexample table: a button carrying no
`aria-expanded` attribute on which clicks succeed. -/
def c6Ctl : Ctl := ⟨none, true, true, true⟩

/-- Counterexample snapshot for C6: no control reports a collapsed state
(`aria-expanded='false'` matches nothing) and no `chevron_right` row
remains — the observable signature of a fully expanded table — yet a
generic button without the `aria-expanded` attribute is present. -/
def c6Snap : Snapshot := ⟨[], [], [], [], [c6Ctl], [], []⟩

/-- Claim C6 counterexample: on a fully expanded table (no collapsed-state
control, no chevron affordance) that still contains a button lacking the
`aria-expanded` attribute, the selector cascade falls through to the bare
`button` query, the skip guard at source lines 277-279 does not fire
(the attribute is absent, not `"true"`), and the loop clicks the button in
every one of its 15 rounds — 15 activation attempts instead of zero. -/
theorem c6_counterexample :
    (c6Snap.btnAriaFalse = [] ∧ c6Snap.chevronRows = []) ∧
    (expandLoop (fun _ => c6Snap) 15 0 0 0).1 = 15 := by decide

/-- Claim C6 (amended): when every element the expandable-control queries
return carries `aria-expanded="true"` and no `chevron_right` row remains —
the state an expansion pass leaves behind when all controls expose the
state attribute — a further `expand_groups` pass attempts zero activations:
it scans once, skips every control, and stops. -/
theorem c6_idempotent_amended (snaps : Nat → Snapshot)
    (h1 : ∀ c ∈ expandablesOf (snaps 0), c.ariaExpanded = some "true")
    (h2 : (snaps 0).chevronRows = []) :
    expandLoop snaps 15 0 0 0 = (0, 1) := by
  have hclicks : roundClicks (snaps 0) = 0 := by
    unfold roundClicks
    exact List.countP_eq_zero.mpr
      (fun c hc => by simp [notExpanded, h1 c hc])
  have hany : roundAnyExpanded (snaps 0) = false := by
    unfold roundAnyExpanded
    rw [List.any_eq_false]
    intro c hc
    simp [notExpanded, h1 c hc]
  show expandLoop snaps (14 + 1) 0 0 0 = (0, 1)
  unfold expandLoop
  rw [if_neg (by simp [hany]), if_neg (by simp [h2]), hclicks]

/-- Witness snapshot for the amended C6: an empty table. -/
def c6wSnap : Snapshot := ⟨[], [], [], [], [], [], []⟩

/-- Witness: the amended C6 at the empty snapshot — zero activations, one
scan round. -/
theorem c6_witness : expandLoop (fun _ => c6wSnap) 15 0 0 0 = (0, 1) :=
  c6_idempotent_amended (fun _ => c6wSnap)
    (fun c hc => by
      simp [expandablesOf, selectorExpandables, chevronExtras, c6wSnap] at hc)
    rfl

/-! ## Retry policy and the orchestration loop of `run`

`parse_event_page` is decorated with
`retry(stop=stop_after_attempt(3), wait=wait_exponential(multiplier=1,
min=2, max=10), retry=retry_if_exception_type(TimeoutException))`.
The decorator semantics are embedded directly: at most 3 calls, a further
attempt only after a `TimeoutException`, any other exception propagating
immediately, and the computed wait before retry `n+1` being
`min(10, max(2, 2^n))` seconds. The per-URL loop of `run` (source lines
850-869) wraps each item in `try/except: continue`. -/

/-- Whether an exception is the `TimeoutException` the retry predicate
`retry_if_exception_type(TimeoutException)` accepts. -/
def isTimeoutExc : PErr → Bool
  | .timeoutExc => true
  | .otherExc _ => false

/-- Exponential backoff `wait_exponential(multiplier=1, min=2, max=10)`:
the wait before the retry following attempt `n`. -/
def waitExp (n : Nat) : Nat := min 10 (max 2 (2 ^ n))

/-- Embedding of the tenacity policy on `parse_event_page` (source lines
701-705): call the attempt function (indexed by attempt number) up to 3
times, retrying only on timeout; the pair also reports how many calls were
made. After the third failing attempt the final error is re-raised. -/
def retryAttempt3 {α : Type} (f : Nat → Except PErr α) : Except PErr α × Nat :=
  match f 1 with
  | .ok a => (.ok a, 1)
  | .error e =>
    if isTimeoutExc e then
      match f 2 with
      | .ok a => (.ok a, 2)
      | .error e2 =>
        if isTimeoutExc e2 then (f 3, 3)
        else (.error e2, 2)
    else (.error e, 1)

/-- Evaluation of the retry policy when the first attempt succeeds. -/
theorem retryAttempt3_ok {α : Type} {f : Nat → Except PErr α} {a : α}
    (h : f 1 = .ok a) : retryAttempt3 f = (.ok a, 1) := by
  unfold retryAttempt3
  rw [h]

/-- Evaluation of the retry policy when the first attempt raises. -/
theorem retryAttempt3_first_error {α : Type} {f : Nat → Except PErr α}
    {e : PErr} (h : f 1 = .error e) :
    retryAttempt3 f =
      (if isTimeoutExc e then
        (match f 2 with
         | .ok a => (.ok a, 2)
         | .error e2 => if isTimeoutExc e2 then (f 3, 3) else (.error e2, 2))
       else (.error e, 1)) := by
  unfold retryAttempt3
  rw [h]

/-- Python `url.rstrip('/').split('/')[-1]` (source lines 708 and 851). -/
def urlCode (u : String) : String :=
  ((splitChar '/' (pyRstripSlash u)).getLast?).getD ""

/-- Session state of `run`: the processed-code set and the collected data. -/
structure RunState (α : Type) where
  processed : List String
  collected : List α

/-- The per-URL loop of `run` (source lines 850-869): skip already processed
codes; on a successful parse save the event and mark the code processed; on
a `None` result do nothing; on any exception log and continue with the next
URL. -/
def runLoop {α : Type} (parse : String → Except PErr (Option α)) :
    RunState α → List String → RunState α
  | st, [] => st
  | st, u :: rest =>
    if urlCode u ∈ st.processed then runLoop parse st rest
    else
      match parse u with
      | .ok (some ev) =>
        runLoop parse ⟨st.processed ++ [urlCode u], st.collected ++ [ev]⟩ rest
      | .ok none => runLoop parse st rest
      | .error _ => runLoop parse st rest

/-- Claim C9: the per-item page parse is attempted at most 3 times (first
conjunct); a non-timeout error on the first attempt propagates immediately
without a retry (second conjunct); a timeout on the first attempt does
trigger a second attempt (third conjunct); the backoff waits are
exponential, clamped to [2, 10] seconds and nondecreasing (fourth
conjunct); and an item whose parse raises is skipped while the loop
continues with the remaining URLs unchanged — one failing item never aborts
the batch (fifth conjunct). -/
theorem c9_retry_and_skip :
    (∀ f : Nat → Except PErr Nat, (retryAttempt3 f).2 ≤ 3)
    ∧ (∀ (f : Nat → Except PErr Nat) (e : PErr), f 1 = .error e →
        isTimeoutExc e = false → retryAttempt3 f = (.error e, 1))
    ∧ (∀ (f : Nat → Except PErr Nat) (e : PErr), f 1 = .error e →
        isTimeoutExc e = true → 2 ≤ (retryAttempt3 f).2)
    ∧ (∀ n : Nat, 2 ≤ waitExp n ∧ waitExp n ≤ 10 ∧ waitExp n ≤ waitExp (n + 1))
    ∧ (∀ (parse : String → Except PErr (Option Nat)) (st : RunState Nat)
        (u : String) (rest : List String) (e : PErr),
        parse u = .error e → urlCode u ∉ st.processed →
        runLoop parse st (u :: rest) = runLoop parse st rest) := by
  refine ⟨?_, ?_, ?_, ?_, ?_⟩
  · intro f
    cases h1 : f 1 with
    | ok a =>
      rw [retryAttempt3_ok h1]
      exact (by norm_num : (1 : Nat) ≤ 3)
    | error e =>
      rw [retryAttempt3_first_error h1]
      cases hti : isTimeoutExc e with
      | false =>
        rw [if_neg (by simp)]
        exact (by norm_num : (1 : Nat) ≤ 3)
      | true =>
        rw [if_pos rfl]
        cases h2 : f 2 with
        | ok a => exact (by norm_num : (2 : Nat) ≤ 3)
        | error e2 =>
          show (if isTimeoutExc e2 = true then (f 3, 3)
                else ((Except.error e2 : Except PErr Nat), 2)).2 ≤ 3
          cases hti2 : isTimeoutExc e2 with
          | false =>
            rw [if_neg (by simp)]
            exact (by norm_num : (2 : Nat) ≤ 3)
          | true => rw [if_pos rfl]
  · intro f e h1 hnt
    rw [retryAttempt3_first_error h1, if_neg (by simp [hnt])]
  · intro f e h1 ht
    rw [retryAttempt3_first_error h1, if_pos ht]
    cases h2 : f 2 with
    | ok a => exact le_refl 2
    | error e2 =>
      show 2 ≤ (if isTimeoutExc e2 = true then (f 3, 3)
                else ((Except.error e2 : Except PErr Nat), 2)).2
      cases hti2 : isTimeoutExc e2 with
      | false => rw [if_neg (by simp)]
      | true =>
        rw [if_pos rfl]
        exact (by norm_num : (2 : Nat) ≤ 3)
  · intro n
    refine ⟨le_min (by norm_num) (le_max_left 2 _), min_le_left _ _, ?_⟩
    exact min_le_min (le_refl 10)
      (max_le_max (le_refl 2)
        (Nat.pow_le_pow_right (by norm_num) (Nat.le_succ n)))
  · intro parse st u rest e hperr hmem
    conv_lhs => rw [runLoop]
    rw [if_neg hmem, hperr]

/-- Witness: a first attempt failing with a non-timeout exception is not
retried — one call, the error propagates. -/
theorem c9_witness :
    retryAttempt3 (fun _ => (.error (.otherExc "NoSuchElement") : Except PErr Nat)) =
      (.error (.otherExc "NoSuchElement"), 1) :=
  c9_retry_and_skip.2.1 (fun _ => .error (.otherExc "NoSuchElement"))
    (.otherExc "NoSuchElement") rfl rfl

end Caristix
